import Mathlib

/-!
Verification of the compilation admission and orchestration subsystem of the
Facto web-compiler backend. The definitions below are a shallow embedding of
`backend/compiler_service.py`, `backend/config.py` and `backend/stats.py`:
pure Python functions become Lean functions, the `CompilationQueue` becomes
explicit state passing over a `QueueState`, and the effectful parts of the
`compile_facto` async generator are modelled as a function from an explicit
`World` (the behaviour of the spawned compiler process and of the filesystem)
to the emitted event stream plus the list of side effects, in order.
-/

namespace Facto

/-! ## Output events (`OutputType` enum, compiler_service.py lines 20-25) -/

inductive OutputType where
  | LOG
  | BLUEPRINT
  | ERROR
  | STATUS
  | QUEUE
deriving DecidableEq

/-- One streamed event: `yield (output_type, content)` in the source. -/
abbrev Event := OutputType × String

/-! ## Compiler options (compiler_service.py lines 28-69)

`CompilerOptions.__post_init__` coerces the fields; `sanitize_blueprint_name`
keeps only the characters of the regex class `[a-zA-Z0-9\s\-_]`, strips
surrounding whitespace and truncates to 100 characters. -/

/-- Membership in Python's `\s` class, restricted to its ASCII part
(`re.sub` with the default Unicode flag also matches a few non-ASCII
whitespace code points; no claim involves those). -/
def isPythonWhitespace (c : Char) : Bool :=
  c == ' ' || c == '\t' || c == '\n' || c == '\r' || c == '\x0b' || c == '\x0c'

/-- Characters kept by `re.sub(r"[^a-zA-Z0-9\s\-_]", "", name)`. -/
def blueprintNameChar (c : Char) : Bool :=
  ('a' ≤ c && c ≤ 'z') || ('A' ≤ c && c ≤ 'Z') || ('0' ≤ c && c ≤ '9') ||
    isPythonWhitespace c || c == '-' || c == '_'

/-- Python's `str.strip()` on a character list: drop whitespace from both ends. -/
def pyStripList (l : List Char) : List Char :=
  ((l.dropWhile isPythonWhitespace).reverse.dropWhile isPythonWhitespace).reverse

/-- Python's `str.strip()`. -/
def pyStrip (s : String) : String :=
  (pyStripList s.toList).asString

/-- Model of `sanitize_blueprint_name` (lines 55-69). -/
def sanitize_blueprint_name : Option String → Option String
  | none => none
  | some n =>
      let kept := n.toList.filter blueprintNameChar
      let sanitized := (pyStripList kept).take 100
      if sanitized.isEmpty then none else some sanitized.asString

structure CompilerOptions where
  power_poles : Option String := none
  name : Option String := none
  no_optimize : Bool := false
  json_output : Bool := false
  log_level : String := "info"
deriving DecidableEq

def valid_log_levels : List String := ["debug", "info", "warning", "error"]

def valid_poles : List (Option String) :=
  [none, some "small", some "medium", some "big", some "substation"]

/-- Model of `CompilerOptions.__post_init__` (lines 38-52). -/
def CompilerOptions.postInit (o : CompilerOptions) : CompilerOptions :=
  let o := if o.log_level ∈ valid_log_levels then o else { o with log_level := "info" }
  let o := if o.power_poles ∈ valid_poles then o else { o with power_poles := none }
  { o with name := sanitize_blueprint_name o.name }

/-- Constructing a `CompilerOptions` in Python runs `__post_init__` on the
raw field values. -/
def mkCompilerOptions (power_poles name : Option String) (no_optimize json_output : Bool)
    (log_level : String) : CompilerOptions :=
  CompilerOptions.postInit
    { power_poles := power_poles, name := name, no_optimize := no_optimize,
      json_output := json_output, log_level := log_level }

/-! ## The compilation queue (compiler_service.py lines 75-171)

The mutable `CompilationQueue` object becomes a `QueueState`; the two
lock-protected critical sections of `acquire` and `release` become the pure
state transformers `acquireStep` and `releaseStep`. The `_events` dict is
modelled by its key list (the payloads are bare `asyncio.Event` handles);
`releaseStep` additionally returns the id whose event handle was set, if any,
and `acquireStep` returns what the critical section decided for the caller. -/

structure QueueState where
  queue : List String
  current : Option String
  events : List String
  max_size : Nat
deriving DecidableEq

/-- Fresh queue, `CompilationQueue.__init__` (lines 81-86). -/
def CompilationQueue.mkInit (max_size : Nat) : QueueState :=
  { queue := [], current := none, events := [], max_size := max_size }

/-- Result of the lock-protected section of `acquire` (lines 117-130). -/
inductive AcquireOutcome where
  | admitted
  | enqueued (position : Nat)
  | rejected (msg : String)
deriving DecidableEq

/-- Model of the critical section of `CompilationQueue.acquire`
(lines 117-130): immediate admission when idle, rejection when the wait list
is at capacity, otherwise append to the tail (registering the caller's event)
and report the 1-based position `len(self._queue)` after the append. -/
def acquireStep (s : QueueState) (request_id : String) : QueueState × AcquireOutcome :=
  if s.current = none ∧ s.queue = [] then
    ({ s with current := some request_id }, .admitted)
  else if s.queue.length ≥ s.max_size then
    (s, .rejected "Server is busy. Please try again later.")
  else
    ({ s with queue := s.queue ++ [request_id], events := s.events ++ [request_id] },
      .enqueued (s.queue.length + 1))

/-- Model of `CompilationQueue.release` (lines 154-171). The returned
`Option String` is the id whose event was set (the woken waiter), if any. -/
def releaseStep (s : QueueState) (request_id : String) : QueueState × Option String :=
  if s.current = some request_id then
    match s.queue with
    | [] => ({ s with current := none }, none)
    | next_id :: rest =>
        if next_id ∈ s.events then
          ({ s with current := some next_id, queue := rest, events := s.events.erase next_id },
            some next_id)
        else
          ({ s with current := some next_id, queue := rest }, none)
  else if request_id ∈ s.queue then
    ({ s with queue := s.queue.erase request_id, events := s.events.erase request_id }, none)
  else
    (s, none)

/-- One queue operation: the critical section of `acquire`, or `release`. -/
inductive QOp where
  | acq (request_id : String)
  | rel (request_id : String)
deriving DecidableEq

def queueStep (s : QueueState) : QOp → QueueState
  | .acq rid => (acquireStep s rid).1
  | .rel rid => (releaseStep s rid).1

def runQueue (s : QueueState) (ops : List QOp) : QueueState :=
  ops.foldl queueStep s

/-- The request ids the acquire operations of a trace use. -/
def acquireIds : List QOp → List String
  | [] => []
  | .acq rid :: ops => rid :: acquireIds ops
  | .rel _ :: ops => acquireIds ops

/-- Ids present anywhere in the queue state: active slot plus wait list. -/
def presentIds (s : QueueState) : List String :=
  s.current.toList ++ s.queue

/-- The single-flight invariant: the wait list holds no duplicates, the
active slot holds at most one id (structurally: it is an `Option`), and the
active id is not also waiting — so every id occupies at most one place. -/
def QueueInv (s : QueueState) : Prop :=
  s.queue.Nodup ∧ s.current.toList.length ≤ 1 ∧
    ∀ c ∈ s.current.toList, c ∉ s.queue

instance (s : QueueState) : Decidable (QueueInv s) := by
  unfold QueueInv; infer_instance

lemma mem_presentIds_acq {s : QueueState} {rid x : String}
    (hx : x ∈ presentIds (queueStep s (.acq rid))) : x ∈ presentIds s ∨ x = rid := by
  by_cases h1 : s.current = none ∧ s.queue = []
  · simp [queueStep, acquireStep, h1, presentIds, h1.1, h1.2] at hx
    exact Or.inr hx
  · by_cases h2 : s.queue.length ≥ s.max_size
    · simp [queueStep, acquireStep, h1, h2] at hx
      exact Or.inl hx
    · simp [queueStep, acquireStep, h1, h2, presentIds] at hx ⊢
      tauto

lemma option_toList_length_le_one (o : Option String) : o.toList.length ≤ 1 := by
  cases o <;> simp

lemma mem_presentIds_rel {s : QueueState} {rid x : String}
    (hx : x ∈ presentIds (queueStep s (.rel rid))) : x ∈ presentIds s := by
  by_cases h1 : s.current = some rid
  · cases hq : s.queue with
    | nil =>
        simp [queueStep, releaseStep, h1, hq, presentIds] at hx
    | cons next rest =>
        by_cases he : next ∈ s.events <;>
        · simp [queueStep, releaseStep, h1, hq, he, presentIds] at hx ⊢
          tauto
  · by_cases h2 : rid ∈ s.queue
    · simp [queueStep, releaseStep, h1, h2, presentIds] at hx ⊢
      rcases hx with h | h
      · exact Or.inl h
      · exact Or.inr (List.erase_subset _ _ h)
    · simpa [queueStep, releaseStep, h1, h2] using hx

lemma queueInv_acq {s : QueueState} {rid : String}
    (h : QueueInv s) (hf : rid ∉ presentIds s) : QueueInv (queueStep s (.acq rid)) := by
  obtain ⟨hnd, _, hcur⟩ := h
  simp [presentIds] at hf
  by_cases h1 : s.current = none ∧ s.queue = []
  · simp [queueStep, acquireStep, h1, QueueInv, h1.2]
  · by_cases h2 : s.queue.length ≥ s.max_size
    · simp only [queueStep, acquireStep, if_neg h1, if_pos h2]
      exact ⟨hnd, option_toList_length_le_one _, hcur⟩
    · simp only [queueStep, acquireStep, if_neg h1, if_neg h2]
      refine ⟨?_, option_toList_length_le_one _, ?_⟩
      · simpa [List.nodup_append, hnd] using fun hmem => hf.2 hmem
      · intro c hc
        simp only [List.mem_append, List.mem_singleton]
        rintro (hcq | hceq)
        · exact hcur c hc hcq
        · subst hceq
          exact hf.1 (by simpa using hc)

lemma queueInv_rel {s : QueueState} {rid : String}
    (h : QueueInv s) : QueueInv (queueStep s (.rel rid)) := by
  obtain ⟨hnd, _, hcur⟩ := h
  by_cases h1 : s.current = some rid
  · cases hq : s.queue with
    | nil =>
        simp [queueStep, releaseStep, h1, hq, QueueInv]
    | cons next rest =>
        have hnd' : rest.Nodup ∧ next ∉ rest := by
          rw [hq] at hnd
          exact ⟨hnd.of_cons, (List.nodup_cons.mp hnd).1⟩
        by_cases he : next ∈ s.events <;>
          · simp [queueStep, releaseStep, h1, hq, he, QueueInv]
            exact ⟨hnd'.1, hnd'.2⟩
  · by_cases h2 : rid ∈ s.queue
    · simp only [queueStep, releaseStep, if_neg h1, if_pos h2]
      refine ⟨hnd.erase rid, option_toList_length_le_one _, ?_⟩
      intro c hc hmem
      exact hcur c hc (List.erase_subset _ _ hmem)
    · simp only [queueStep, releaseStep, if_neg h1, if_neg h2]
      exact ⟨hnd, option_toList_length_le_one _, hcur⟩

lemma runQueue_inv (ops : List QOp) : ∀ s : QueueState, QueueInv s →
    (acquireIds ops).Nodup → (∀ rid ∈ acquireIds ops, rid ∉ presentIds s) →
    QueueInv (runQueue s ops) ∧
      ∀ x ∈ presentIds (runQueue s ops), x ∈ presentIds s ∨ x ∈ acquireIds ops := by
  induction ops with
  | nil => exact fun s h _ _ => ⟨h, fun x hx => Or.inl hx⟩
  | cons op ops ih =>
      intro s h hnd hf
      cases op with
      | acq rid =>
          have hnd' : rid ∉ acquireIds ops ∧ (acquireIds ops).Nodup := by
            simpa [acquireIds, List.nodup_cons] using hnd
          have hfresh : rid ∉ presentIds s := hf rid (by simp [acquireIds])
          have hf' : ∀ r ∈ acquireIds ops, r ∉ presentIds (queueStep s (.acq rid)) := by
            intro r hr hmem
            rcases mem_presentIds_acq hmem with hold | hnew
            · exact hf r (by simp [acquireIds, hr]) hold
            · exact hnd'.1 (hnew ▸ hr)
          have := ih (queueStep s (.acq rid)) (queueInv_acq h hfresh) hnd'.2 hf'
          refine ⟨this.1, fun x hx => ?_⟩
          rcases this.2 x hx with hmem | hops
          · rcases mem_presentIds_acq hmem with hold | hnew
            · exact Or.inl hold
            · exact Or.inr (by simp [acquireIds, hnew])
          · exact Or.inr (by simp [acquireIds, hops])
      | rel rid =>
          have hnd' : (acquireIds ops).Nodup := by simpa [acquireIds] using hnd
          have hf' : ∀ r ∈ acquireIds ops, r ∉ presentIds (queueStep s (.rel rid)) :=
            fun r hr hmem => hf r (by simp [acquireIds, hr]) (mem_presentIds_rel hmem)
          have := ih (queueStep s (.rel rid)) (queueInv_rel h) hnd' hf'
          refine ⟨this.1, fun x hx => ?_⟩
          rcases this.2 x hx with hmem | hops
          · exact Or.inl (mem_presentIds_rel hmem)
          · exact Or.inr (by simp [acquireIds, hops])

/-- Every waiting id has a registered event handle: `acquire` registers a
handle whenever it enqueues, and `release` removes handles only for ids it
removes from the wait list. -/
def EventsInv (s : QueueState) : Prop :=
  ∀ x ∈ s.queue, x ∈ s.events

lemma eventsInv_acq {s : QueueState} {rid : String} (hE : EventsInv s) :
    EventsInv (queueStep s (.acq rid)) := by
  by_cases h1 : s.current = none ∧ s.queue = []
  · simp [queueStep, acquireStep, h1, EventsInv, h1.2]
  · by_cases h2 : s.queue.length ≥ s.max_size
    · simpa [queueStep, acquireStep, h1, h2, EventsInv] using hE
    · intro x hx
      have hx' : x ∈ s.queue ++ [rid] := by
        simpa [queueStep, acquireStep, h1, h2] using hx
      have hgoal : x ∈ s.events ++ [rid] := by
        rcases List.mem_append.mp hx' with hq | hr
        · exact List.mem_append.mpr (Or.inl (hE x hq))
        · exact List.mem_append.mpr (Or.inr hr)
      simpa [queueStep, acquireStep, h1, h2] using hgoal

lemma eventsInv_rel {s : QueueState} {rid : String} (hQ : QueueInv s) (hE : EventsInv s) :
    EventsInv (queueStep s (.rel rid)) := by
  obtain ⟨hnd, -, -⟩ := hQ
  by_cases h1 : s.current = some rid
  · cases hq : s.queue with
    | nil => simp [queueStep, releaseStep, h1, hq, EventsInv]
    | cons next rest =>
        rw [hq] at hnd
        have hnr : next ∉ rest := (List.nodup_cons.mp hnd).1
        by_cases he : next ∈ s.events
        · intro x hx
          have hx' : x ∈ rest := by simpa [queueStep, releaseStep, h1, hq, he] using hx
          have hxe : x ∈ s.events := hE x (by rw [hq]; exact List.mem_cons_of_mem _ hx')
          have hxne : x ≠ next := fun habs => hnr (habs ▸ hx')
          have hgoal : x ∈ s.events.erase next := (List.mem_erase_of_ne hxne).mpr hxe
          simpa [queueStep, releaseStep, h1, hq, he] using hgoal
        · intro x hx
          have hx' : x ∈ rest := by simpa [queueStep, releaseStep, h1, hq, he] using hx
          have hxe : x ∈ s.events := hE x (by rw [hq]; exact List.mem_cons_of_mem _ hx')
          simpa [queueStep, releaseStep, h1, hq, he] using hxe
  · by_cases h2 : rid ∈ s.queue
    · intro x hx
      have hx' : x ∈ s.queue.erase rid := by
        simpa [queueStep, releaseStep, h1, h2] using hx
      have hxq := hnd.mem_erase_iff.mp hx'
      have hgoal : x ∈ s.events.erase rid :=
        (List.mem_erase_of_ne hxq.1).mpr (hE x hxq.2)
      simpa [queueStep, releaseStep, h1, h2] using hgoal
    · simpa [queueStep, releaseStep, h1, h2, EventsInv] using hE

lemma runQueue_inv_events (ops : List QOp) : ∀ s : QueueState,
    QueueInv s → EventsInv s →
    (acquireIds ops).Nodup → (∀ rid ∈ acquireIds ops, rid ∉ presentIds s) →
    EventsInv (runQueue s ops) := by
  induction ops with
  | nil => exact fun s _ hE _ _ => hE
  | cons op ops ih =>
      intro s hQ hE hnd hf
      cases op with
      | acq rid =>
          have hnd' : rid ∉ acquireIds ops ∧ (acquireIds ops).Nodup := by
            simpa [acquireIds, List.nodup_cons] using hnd
          have hfresh : rid ∉ presentIds s := hf rid (by simp [acquireIds])
          have hf' : ∀ r ∈ acquireIds ops, r ∉ presentIds (queueStep s (.acq rid)) := by
            intro r hr hmem
            rcases mem_presentIds_acq hmem with hold | hnew
            · exact hf r (by simp [acquireIds, hr]) hold
            · exact hnd'.1 (hnew ▸ hr)
          exact ih _ (queueInv_acq hQ hfresh) (eventsInv_acq hE) hnd'.2 hf'
      | rel rid =>
          have hnd' : (acquireIds ops).Nodup := by simpa [acquireIds] using hnd
          have hf' : ∀ r ∈ acquireIds ops, r ∉ presentIds (queueStep s (.rel rid)) :=
            fun r hr hmem => hf r (by simp [acquireIds, hr]) (mem_presentIds_rel hmem)
          exact ih _ (queueInv_rel hQ) (eventsInv_rel hQ hE) hnd' hf'

/-- In every state the queue reaches from fresh along distinct-id traces,
every waiting id has a registered event handle — this discharges the
hypothesis of the release theorem (C4) on all reachable states. -/
lemma runQueue_events_registered (max_size : Nat) (ops : List QOp)
    (h : (acquireIds ops).Nodup) :
    EventsInv (runQueue (CompilationQueue.mkInit max_size) ops) :=
  runQueue_inv_events ops _ (by simp [QueueInv, CompilationQueue.mkInit])
    (by intro x hx; simp [CompilationQueue.mkInit] at hx)
    h (fun rid _ => by simp [presentIds, CompilationQueue.mkInit])

/-- C1: starting from a fresh queue, after any sequence of acquire/release
critical sections whose acquire operations use pairwise-distinct fresh
request ids, the single-flight invariant holds: the active slot holds at most
one id, the wait list is duplicate-free, and no id is simultaneously active
and waiting — so every request id occupies at most one of the two places and
at most one compilation is in flight. -/
theorem C1_queue_single_flight (max_size : Nat) (ops : List QOp)
    (h : (acquireIds ops).Nodup) :
    QueueInv (runQueue (CompilationQueue.mkInit max_size) ops) :=
  (runQueue_inv ops (CompilationQueue.mkInit max_size)
    (by simp [QueueInv, CompilationQueue.mkInit])
    h
    (fun rid _ => by simp [presentIds, CompilationQueue.mkInit])).1

/-- Witness for C1 at a concrete trace: two distinct requests acquire, the
first releases and the second is promoted. -/
theorem C1_queue_single_flight_witness :
    QueueInv (runQueue (CompilationQueue.mkInit 10)
      [QOp.acq "a", QOp.acq "b", QOp.rel "a"]) :=
  C1_queue_single_flight 10 [QOp.acq "a", QOp.acq "b", QOp.rel "a"] (by decide)

/-- C4: behaviour of `release(jobId)` in its three cases. When `jobId` holds
the active slot, the slot is handed to the head of the wait list (or cleared
when nobody waits), the head is popped, and exactly the promoted waiter's
wait-handle is set; the hypothesis that every waiting id has a registered
event handle holds for every state the queue actually reaches, since
`acquire` registers a handle whenever it enqueues. When `jobId` is waiting,
it is removed together with its handle and nobody is promoted. When `jobId`
is in neither place, the call is a no-op. -/
theorem C4_release_cases (s : QueueState) (rid : String)
    (hEv : ∀ x ∈ s.queue, x ∈ s.events) :
    (s.current = some rid →
      (releaseStep s rid).1.current = s.queue.head? ∧
      (releaseStep s rid).1.queue = s.queue.tail ∧
      (releaseStep s rid).2 = s.queue.head?) ∧
    (s.current ≠ some rid → rid ∈ s.queue →
      (releaseStep s rid).1 =
        { s with queue := s.queue.erase rid, events := s.events.erase rid } ∧
      (releaseStep s rid).2 = none) ∧
    (s.current ≠ some rid → rid ∉ s.queue → releaseStep s rid = (s, none)) := by
  refine ⟨?_, ?_, ?_⟩
  · intro h1
    cases hq : s.queue with
    | nil => simp [releaseStep, h1, hq]
    | cons next rest =>
        have he : next ∈ s.events := hEv next (by simp [hq])
        simp [releaseStep, h1, hq, he]
  · intro h1 h2
    simp [releaseStep, h1, h2]
  · intro h1 h2
    simp [releaseStep, h1, h2]

/-- Witness for C4 at a concrete state: request `a` is active, request `b`
waits with a registered handle; releasing `a` promotes and wakes `b`. -/
theorem C4_release_cases_witness :
    (releaseStep (QueueState.mk ["b"] (some "a") ["b"] 10) "a").1.current = some "b" ∧
    (releaseStep (QueueState.mk ["b"] (some "a") ["b"] 10) "a").2 = some "b" := by
  have h :=
    (C4_release_cases (QueueState.mk ["b"] (some "a") ["b"] 10) "a" (by decide)).1 rfl
  exact ⟨by rw [h.1]; rfl, by rw [h.2.2]; rfl⟩

/-- C5 (amended): the immediate-admission test runs first — when no job is
active and the wait list is empty the caller always becomes active, even in
the degenerate configuration `max_size = 0` where the wait list already
holds `max_size` entries; only otherwise does a wait list at capacity cause
the busy-server rejection, which leaves the state untouched; otherwise the
caller is appended at the tail (with its event handle registered) and its
reported initial position is its 1-based index, the new wait-list length. -/
theorem C5_acquire_cases (s : QueueState) (rid : String) :
    ((s.current = none ∧ s.queue = []) →
      acquireStep s rid = ({ s with current := some rid }, .admitted)) ∧
    (¬(s.current = none ∧ s.queue = []) → s.queue.length ≥ s.max_size →
      acquireStep s rid = (s, .rejected "Server is busy. Please try again later.")) ∧
    (¬(s.current = none ∧ s.queue = []) → s.queue.length < s.max_size →
      (acquireStep s rid).1 =
        { s with queue := s.queue ++ [rid], events := s.events ++ [rid] } ∧
      (acquireStep s rid).2 = .enqueued (s.queue.length + 1) ∧
      s.queue.length + 1 = (s.queue ++ [rid]).length) := by
  refine ⟨fun h1 => by simp [acquireStep, h1], fun h1 h2 => by simp [acquireStep, h1, h2],
    fun h1 h2 => ?_⟩
  have h2' : ¬ s.queue.length ≥ s.max_size := by omega
  refine ⟨by simp [acquireStep, h1, h2'], by simp [acquireStep, h1, h2'], by simp⟩

/-- Counterexample to C5 as stated: with `max_size = 0`, an idle queue
already holds `max_size` (zero) waiting entries, yet `acquire` admits the
caller immediately and mutates the state instead of rejecting. -/
theorem C5_rejection_counterexample :
    (QueueState.mk [] none [] 0).queue.length = (QueueState.mk [] none [] 0).max_size ∧
    (acquireStep (QueueState.mk [] none [] 0) "j").2 = AcquireOutcome.admitted ∧
    (acquireStep (QueueState.mk [] none [] 0) "j").1 ≠ QueueState.mk [] none [] 0 := by
  decide

/-- Character set named by the spec's words for a sanitized display name:
"alphanumeric/space/hyphen/underscore". Written from the spec, to be compared
with `blueprintNameChar`, which embeds the code's regex class (the two differ
on non-space whitespace such as tab). -/
def claimNameChar (c : Char) : Bool :=
  ('a' ≤ c && c ≤ 'z') || ('A' ≤ c && c ≤ 'Z') || ('0' ≤ c && c ≤ '9') ||
    c == ' ' || c == '-' || c == '_'

lemma pyStripList_sublist (l : List Char) : (pyStripList l).Sublist l := by
  unfold pyStripList
  have h1 : (l.dropWhile isPythonWhitespace).Sublist l := List.dropWhile_sublist _
  have h2 :
      ((l.dropWhile isPythonWhitespace).reverse.dropWhile isPythonWhitespace).Sublist
        (l.dropWhile isPythonWhitespace).reverse := List.dropWhile_sublist _
  have h3 := h2.reverse
  rw [List.reverse_reverse] at h3
  exact h3.trans h1

lemma sanitize_blueprint_name_legal (n : Option String) :
    ∀ s, sanitize_blueprint_name n = some s →
      s ≠ "" ∧ s.length ≤ 100 ∧ s.toList.all blueprintNameChar = true := by
  intro s hs
  cases n with
  | none => simp [sanitize_blueprint_name] at hs
  | some n =>
      simp only [sanitize_blueprint_name] at hs
      set l := (pyStripList (n.toList.filter blueprintNameChar)).take 100 with hl
      by_cases hemp : l.isEmpty
      · simp [hemp] at hs
      · simp only [hemp, Bool.false_eq_true, if_false, Option.some.injEq] at hs
        have hdata : s.toList = l := by rw [← hs]; rfl
        have hlen : s.length = l.length := by rw [← hs]; rfl
        refine ⟨?_, ?_, ?_⟩
        · intro habs
          rw [habs] at hlen
          have : l = [] := List.length_eq_zero.mp hlen.symm
          simp [this] at hemp
        · rw [hlen, hl]
          exact List.length_take_le _ _
        · rw [List.all_eq_true]
          intro c hc
          rw [hdata, hl] at hc
          have hc' : c ∈ pyStripList (n.toList.filter blueprintNameChar) :=
            (List.take_sublist _ _).subset hc
          have hc'' : c ∈ n.toList.filter blueprintNameChar :=
            (pyStripList_sublist _).subset hc'
          exact (List.mem_filter.mp hc'').2

/-- C8 (amended): constructing `CompilerOptions` never rejects and always
lands in the legal domain — `log_level` is coerced into
`debug|info|warning|error`, `power_poles` into
`none|small|medium|big|substation`, and the name becomes `none` or a
non-empty string of at most 100 characters drawn from the regex class
`[a-zA-Z0-9\s\-_]`: alphanumerics, hyphens, underscores and *whitespace*
(not only the space character, as the claim stated). -/
theorem C8_options_always_legal (pp nm : Option String) (no_opt js : Bool) (ll : String) :
    (mkCompilerOptions pp nm no_opt js ll).log_level ∈ valid_log_levels ∧
    (mkCompilerOptions pp nm no_opt js ll).power_poles ∈ valid_poles ∧
    ∀ s, (mkCompilerOptions pp nm no_opt js ll).name = some s →
      s ≠ "" ∧ s.length ≤ 100 ∧ s.toList.all blueprintNameChar = true := by
  have hname : (mkCompilerOptions pp nm no_opt js ll).name = sanitize_blueprint_name nm := by
    simp only [mkCompilerOptions, CompilerOptions.postInit]
    split_ifs <;> rfl
  refine ⟨?_, ?_, fun s hs => sanitize_blueprint_name_legal nm s (hname ▸ hs)⟩
  · simp only [mkCompilerOptions, CompilerOptions.postInit]
    split_ifs with h1 h2 h2 <;> simp_all [valid_log_levels]
  · simp only [mkCompilerOptions, CompilerOptions.postInit]
    split_ifs with h1 h2 h2 <;> simp_all [valid_poles]

/-- Counterexample to C8 as stated: a tab character survives name
sanitization (the code's regex keeps every `\s` character), so the
constructed name is not restricted to alphanumerics, spaces, hyphens and
underscores. -/
theorem C8_name_whitespace_counterexample :
    (mkCompilerOptions none (some "a\tb") false false "info").name = some "a\tb" ∧
    "a\tb".toList.all claimNameChar = false := by decide

/-! ## Configuration (config.py lines 7-31)

`Settings` mirrors the fields `config.py` declares, with their defaults.
`compiler_service.py` additionally dereferences `settings.max_queue_size`
(line 181), `settings.queue_timeout` (line 288) and `settings.debug_mode`
(line 351), which `Settings` does not define; the service-side model
therefore takes a `ServiceSettings` record carrying every field the service
reads, and claim C7 compares the two field sets. -/

structure Settings where
  host : String := "0.0.0.0"
  port : Nat := 8000
  allowed_origins : String := "https://yourusername.github.io,http://localhost:3000"
  rate_limit_requests : Nat := 30
  rate_limit_window : Nat := 60
  max_source_length : Nat := 50000
  compilation_timeout : Nat := 30
  max_concurrent_compilations : Nat := 5
  facto_compiler_path : String := "factompile"
deriving DecidableEq

/-- The attribute names `Settings` (config.py lines 7-31) defines, in source
order. -/
def Settings.fieldNames : List String :=
  ["host", "port", "allowed_origins", "rate_limit_requests", "rate_limit_window",
   "max_source_length", "compilation_timeout", "max_concurrent_compilations",
   "facto_compiler_path"]

/-- The attribute names `compiler_service.py` reads off the `settings`
object: `max_source_length` (line 193), `compilation_timeout` (lines 374 and
420), `max_queue_size` (line 181), `queue_timeout` (line 288),
`facto_compiler_path` (line 229) and `debug_mode` (line 351). -/
def coreSettingsReads : List String :=
  ["max_source_length", "compilation_timeout", "max_queue_size", "queue_timeout",
   "facto_compiler_path", "debug_mode"]

/-- Configuration values `compiler_service.py` actually dereferences; the
last three have no definition in config.py's `Settings` (claim C7). -/
structure ServiceSettings where
  max_source_length : Nat
  compilation_timeout : Nat
  facto_compiler_path : String
  max_queue_size : Nat
  queue_timeout : Nat
  debug_mode : Bool
deriving DecidableEq

/-! ## Source sanitization (compiler_service.py lines 185-222) -/

/-- Characters the control-character filter keeps (lines 199-203):
newline, carriage return, tab, or a code point that is at least 32 and
not 127. -/
def control_kept (c : Char) : Bool :=
  c == '\n' || c == '\r' || c == '\t' ||
    (decide (32 ≤ c.toNat) && decide (c.toNat ≠ 127))

/-- Model of `sanitize_source` (lines 185-222). The eight
suspicious-pattern regexes of lines 207-216 are abstracted as the
`suspicious` oracle applied, as in the source, to the control-filtered text;
the spec itself treats that denylist as a pluggable policy (design note §9),
and no claim depends on which patterns fire. A `ValueError` becomes
`Except.error` carrying the exception message. -/
def sanitize_source (st : ServiceSettings) (source : String)
    (suspicious : String → Bool) : Except String String :=
  if pyStrip source = "" then
    .error "Source code cannot be empty"
  else if source.length > st.max_source_length then
    .error ("Source code exceeds maximum length of " ++
      toString st.max_source_length ++ " characters")
  else
    let cleaned := (source.toList.filter control_kept).asString
    if suspicious cleaned then
      .error "Source contains potentially malicious content"
    else
      .ok cleaned

/-- Model of `build_compiler_command` (lines 225-246); the `if option:`
tests are Python truthiness on strings, i.e. non-emptiness. -/
def build_compiler_command (st : ServiceSettings) (source_path output_path : String)
    (options : CompilerOptions) : List String :=
  [st.facto_compiler_path, source_path, "-o", output_path]
    ++ (match options.power_poles with
        | some p => if p != "" then ["--power-poles", p] else []
        | none => [])
    ++ (match options.name with
        | some n => if n != "" then ["--name", n] else []
        | none => [])
    ++ (if options.no_optimize then ["--no-optimize"] else [])
    ++ (if options.json_output then ["--json"] else [])
    ++ (if options.log_level != "" then ["--log-level", options.log_level] else [])

/-! ## The compile_facto job body (compiler_service.py lines 249-442)

`compile_facto` is an async generator; its behaviour from the moment the
admission slot is held (line 314) onwards is deterministic given the
behaviour of the external world: whether the subprocess could be spawned,
whether it timed out, its exit code, the diagnostic lines it streamed,
whether the output artifact file was readable and with what content, and
whether the two `os.unlink` calls succeeded. `World` packages that
behaviour; `compileAdmitted` then returns the events the generator yields
and the side effects it performs, each in order. Durations passed to the
statistics hooks are wall-clock values and are abstracted away: only which
hook runs, and how often, is modelled. -/

/-- Outcome of reading the output artifact after a zero exit
(compiler_service.py lines 396-407): the `open`/`read` may succeed with the
file's text; raise `FileNotFoundError` — the only exception the `except`
clause at line 402 catches; or raise some other error (`PermissionError`,
`UnicodeDecodeError`, ...) for a file that is present but unreadable, which
no handler catches. -/
inductive ReadOutcome where
  | content (text : String)
  | missing
  | unreadable
deriving DecidableEq

/-- True exactly for the `FileNotFoundError` outcome — the only read failure
the code turns into an error event and a failure record. -/
def ReadOutcome.isMissing : ReadOutcome → Bool
  | .missing => true
  | _ => false

/-- The artifact text when the read succeeded, `none` otherwise. -/
def ReadOutcome.readableContent : ReadOutcome → Option String
  | .content text => some text
  | _ => none

structure World where
  source_path : String
  output_path : String
  spawn_ok : Bool
  timed_out : Bool
  returncode : Int
  stderr_lines : List String
  output_file : ReadOutcome
  unlink_source_ok : Bool
  unlink_output_ok : Bool
  suspicious : String → Bool

/-- Side effects of one job, in program order. -/
inductive Effect where
  | record_start
  | record_success
  | record_failure
  | release (request_id : String)
  | spawn
  | kill
  | unlink (path : String) (ok : Bool)
deriving DecidableEq

/-- Lines 346-421: the inner `try` body, from building the command to the
terminal status/error events of the run. Returns the yielded events, the
effects, and the final value of the `compilation_success` flag. Each
diagnostic line is rstripped and has the temporary paths masked
(lines 383-386). -/
def innerBody (st : ServiceSettings) (opts : CompilerOptions) (w : World) :
    List Event × List Effect × Bool :=
  let cmd := build_compiler_command st w.source_path w.output_path opts
  let launch_log : Event :=
    if st.debug_mode then (OutputType.LOG, "Running: " ++ " ".intercalate cmd)
    else (OutputType.LOG, "Starting compilation...")
  if w.spawn_ok then
    let logs : List Event := w.stderr_lines.map fun l =>
      (OutputType.LOG, ((l.trimRight).replace w.source_path "[source]").replace
        w.output_path "[output]")
    if w.timed_out then
      (launch_log :: logs ++
        [(OutputType.ERROR, "Compilation timed out after " ++
          toString st.compilation_timeout ++ " seconds")],
       [Effect.spawn, Effect.kill], false)
    else if w.returncode = 0 then
      match w.output_file with
      | .content text =>
          let blueprint := pyStrip text
          if blueprint = "" then
            (launch_log :: logs ++ [(OutputType.STATUS, "Compilation successful!")],
             [Effect.spawn], true)
          else
            (launch_log :: logs ++
              [(OutputType.STATUS, "Compilation successful!"),
               (OutputType.BLUEPRINT, blueprint)],
             [Effect.spawn], true)
      | .missing =>
          (launch_log :: logs ++
            [(OutputType.STATUS, "Compilation successful!"),
             (OutputType.ERROR, "Compilation failed: no output generated")],
           [Effect.spawn], false)
      | .unreadable =>
          -- An uncaught read error propagates: the success status was already
          -- yielded (line 394) and compilation_success set True (line 395), so
          -- the stream ends here with no further events while both finally
          -- blocks still run — the job is recorded as a SUCCESS.
          (launch_log :: logs ++ [(OutputType.STATUS, "Compilation successful!")],
           [Effect.spawn], true)
    else
      (launch_log :: logs ++
        [(OutputType.STATUS, "Compilation failed (exit code " ++
          toString w.returncode ++ ")"),
         (OutputType.ERROR, "See log output for details")],
       [Effect.spawn], false)
  else
    ([launch_log,
      (OutputType.ERROR, "Compiler not found. Please contact the administrator.")],
     [], false)

/-- Lines 314-442: the generator once the admission slot is held. It yields
`QueuePosition(0)` (line 315), records the compilation start (line 319),
sanitizes the source inside the outer `try` (lines 325-329), creates the two
temporary files, runs the inner body, and the two `finally` blocks then
delete the temporary files (failures swallowed, lines 423-432) and record
exactly one success/failure before releasing the slot (lines 434-441). -/
def compileAdmitted (st : ServiceSettings) (request_id : String) (source : String)
    (opts : CompilerOptions) (w : World) : List Event × List Effect :=
  match sanitize_source st source w.suspicious with
  | .error e =>
      ([(OutputType.QUEUE, "0"), (OutputType.ERROR, e)],
       [Effect.record_start, Effect.record_failure, Effect.release request_id])
  | .ok _cleaned =>
      let r := innerBody st opts w
      ((OutputType.QUEUE, "0") :: (OutputType.STATUS, "Starting compilation...") :: r.1,
       Effect.record_start :: r.2.1 ++
         [Effect.unlink w.source_path w.unlink_source_ok,
          Effect.unlink w.output_path w.unlink_output_ok,
          (if r.2.2 then Effect.record_success else Effect.record_failure),
          Effect.release request_id])

/-- Tests whether an effect is one of the two statistics result hooks. -/
def isRecordEffect : Effect → Bool
  | .record_success => true
  | .record_failure => true
  | _ => false

/-- Tests whether an effect releases the slot held for `rid`. -/
def isReleaseEffect (rid : String) : Effect → Bool
  | .release r => r == rid
  | _ => false

lemma innerBody_countP_record (st : ServiceSettings) (opts : CompilerOptions) (w : World) :
    (innerBody st opts w).2.1.countP isRecordEffect = 0 := by
  unfold innerBody
  repeat' split
  all_goals simp [List.countP_cons, isRecordEffect]
  all_goals split <;> simp [List.countP_cons, isRecordEffect]

lemma innerBody_countP_release (st : ServiceSettings) (opts : CompilerOptions) (w : World)
    (rid : String) : (innerBody st opts w).2.1.countP (isReleaseEffect rid) = 0 := by
  unfold innerBody
  repeat' split
  all_goals simp [List.countP_cons, isReleaseEffect]
  all_goals split <;> simp [List.countP_cons, isReleaseEffect]

/-- C2: once a job holds the slot — the stream has emitted `QueuePosition(0)`
and the statistics start hook has run — every exit path of the remaining body
(sanitization rejection, spawn failure, nonzero exit, timeout, missing
artifact, unreadable artifact, success) performs exactly one of
`record_compilation_success`/`record_compilation_failure` and exactly one
`queue.release(request_id)`: the two `finally` blocks guarantee it for every
`World`. -/
theorem C2_record_and_release_once (st : ServiceSettings) (rid source : String)
    (opts : CompilerOptions) (w : World) :
    (compileAdmitted st rid source opts w).1.head? = some (OutputType.QUEUE, "0") ∧
    Effect.record_start ∈ (compileAdmitted st rid source opts w).2 ∧
    (compileAdmitted st rid source opts w).2.countP isRecordEffect = 1 ∧
    (compileAdmitted st rid source opts w).2.countP (isReleaseEffect rid) = 1 := by
  unfold compileAdmitted
  cases hs : sanitize_source st source w.suspicious with
  | error e =>
      simp [List.countP_cons, isRecordEffect, isReleaseEffect]
  | ok c =>
      refine ⟨rfl, by simp, ?_, ?_⟩
      · have h0 := innerBody_countP_record st opts w
        cases hb : (innerBody st opts w).2.2 <;>
          simp [List.countP_cons, List.countP_append, h0, hb, isRecordEffect]
      · have h0 := innerBody_countP_release st opts w rid
        cases hb : (innerBody st opts w).2.2 <;>
          simp [List.countP_cons, List.countP_append, h0, hb, isReleaseEffect]

/-- C9: whenever the job gets past sanitization (so the two temporary files
are created), both files are unlinked before the stream ends, whatever the
outcome and whatever the unlink results; and an unlink failure is swallowed —
the emitted event stream is the same whatever the two unlink outcomes. -/
theorem C9_temp_files_cleaned (st : ServiceSettings) (rid source : String)
    (opts : CompilerOptions) (w : World)
    (h : (sanitize_source st source w.suspicious).isOk = true) :
    Effect.unlink w.source_path w.unlink_source_ok ∈ (compileAdmitted st rid source opts w).2 ∧
    Effect.unlink w.output_path w.unlink_output_ok ∈ (compileAdmitted st rid source opts w).2 ∧
    ∀ a b : Bool,
      (compileAdmitted st rid source opts
        { w with unlink_source_ok := a, unlink_output_ok := b }).1 =
      (compileAdmitted st rid source opts w).1 := by
  obtain ⟨sp, op, so, tmo, rc, sl, ofil, us, uo, su⟩ := w
  cases hs : sanitize_source st source su with
  | error e => rw [hs] at h; simp [Except.isOk, Except.toBool] at h
  | ok c =>
      refine ⟨?_, ?_, fun a b => ?_⟩ <;> simp [compileAdmitted, hs]
      rfl

/-- Default options, as constructed for a request that supplies none. -/
def defaultOpts : CompilerOptions := mkCompilerOptions none none false false "info"

/-- A service configuration with config.py's defaults for the fields
`Settings` defines, and plausible values for the three the service reads but
`Settings` lacks. -/
def sampleSettings : ServiceSettings :=
  { max_source_length := 50000, compilation_timeout := 30,
    facto_compiler_path := "factompile", max_queue_size := 10, queue_timeout := 60,
    debug_mode := false }

/-- A concrete happy-path world: the process spawns, exits 0 in time with a
readable non-empty artifact, and both unlink calls fail. -/
def sampleWorld : World :=
  { source_path := "/tmp/in.facto", output_path := "/tmp/out.txt", spawn_ok := true,
    timed_out := false, returncode := 0, stderr_lines := [],
    output_file := ReadOutcome.content "0eNqV", unlink_source_ok := false,
    unlink_output_ok := false,
    suspicious := fun _ => false }

/-- Witness for C9 at a concrete job whose unlink calls both fail: the
unlink effects still happen and the stream is unchanged. -/
theorem C9_temp_files_cleaned_witness :
    Effect.unlink sampleWorld.source_path sampleWorld.unlink_source_ok ∈
      (compileAdmitted sampleSettings "r1" "circuit" defaultOpts sampleWorld).2 ∧
    Effect.unlink sampleWorld.output_path sampleWorld.unlink_output_ok ∈
      (compileAdmitted sampleSettings "r1" "circuit" defaultOpts sampleWorld).2 ∧
    ∀ a b : Bool,
      (compileAdmitted sampleSettings "r1" "circuit" defaultOpts
        { sampleWorld with unlink_source_ok := a, unlink_output_ok := b }).1 =
      (compileAdmitted sampleSettings "r1" "circuit" defaultOpts sampleWorld).1 :=
  C9_temp_files_cleaned sampleSettings "r1" "circuit" defaultOpts sampleWorld (by rfl)

/-- A configuration whose maximum source length is tiny, to exercise the
length rejection concretely. -/
def tinySettings : ServiceSettings :=
  { sampleSettings with max_source_length := 2 }

/-- C6 (amended): a non-blank source longer than `max_source_length`
submitted by an admitted job produces exactly the admission
`QueuePosition(0)` event followed by the terminal length-violation `Error` —
sanitization runs after admission, so the `QueuePosition(0)` event is always
emitted before the rejection. -/
theorem C6_oversize_error_after_admission (st : ServiceSettings) (rid : String)
    (opts : CompilerOptions) (w : World) (source : String)
    (h1 : pyStrip source ≠ "") (h2 : source.length > st.max_source_length) :
    (compileAdmitted st rid source opts w).1 =
      [(OutputType.QUEUE, "0"),
       (OutputType.ERROR, "Source code exceeds maximum length of " ++
         toString st.max_source_length ++ " characters")] := by
  unfold compileAdmitted sanitize_source
  simp [h1, h2]

/-- Witness for C6 (amended) at a concrete oversized source. -/
theorem C6_oversize_error_witness :
    (compileAdmitted tinySettings "r2" "aaaa" defaultOpts sampleWorld).1 =
      [(OutputType.QUEUE, "0"),
       (OutputType.ERROR, "Source code exceeds maximum length of " ++
         toString tinySettings.max_source_length ++ " characters")] :=
  C6_oversize_error_after_admission tinySettings "r2" defaultOpts sampleWorld "aaaa"
    (by decide) (by decide)

/-- Counterexample to C6 as stated: for an oversized source the stream does
contain a `QueuePosition` event — the admission `QueuePosition(0)` is yielded
before sanitization runs. -/
theorem C6_queueposition_counterexample :
    ("aaaa" : String).length > tinySettings.max_source_length ∧
    (OutputType.QUEUE, "0") ∈
      (compileAdmitted tinySettings "r2" "aaaa" defaultOpts sampleWorld).1 := by
  decide

/-- C7: the service dereferences `settings.max_queue_size`,
`settings.queue_timeout` and `settings.debug_mode`, but config.py's
`Settings` defines none of the three, so those attribute reads raise
`AttributeError` at runtime (the first one inside `get_compilation_queue`)
instead of never faulting as the claim states. -/
theorem C7_settings_fields_missing :
    ("max_queue_size" ∈ coreSettingsReads ∧ "max_queue_size" ∉ Settings.fieldNames) ∧
    ("queue_timeout" ∈ coreSettingsReads ∧ "queue_timeout" ∉ Settings.fieldNames) ∧
    ("debug_mode" ∈ coreSettingsReads ∧ "debug_mode" ∉ Settings.fieldNames) := by
  decide

lemma innerBody_characterization (st : ServiceSettings) (opts : CompilerOptions) (w : World) :
    (((innerBody st opts w).2.2 = true) ↔
      (w.spawn_ok = true ∧ w.timed_out = false ∧ w.returncode = 0 ∧
        w.output_file.isMissing = false)) ∧
    (((innerBody st opts w).1.any fun e => e.1 == OutputType.BLUEPRINT) = true ↔
      (w.spawn_ok = true ∧ w.timed_out = false ∧ w.returncode = 0 ∧
        pyStrip (w.output_file.readableContent.getD "") ≠ "")) := by
  obtain ⟨sp, op, so, tmo, rc, sl, ofil, us, uo, su⟩ := w
  cases hdm : st.debug_mode <;> cases so <;> cases tmo <;>
    rcases ofil with content | - | - <;>
      by_cases hrc : rc = 0 <;>
        simp [innerBody, hdm, hrc, List.any_map, Function.comp,
          ReadOutcome.isMissing, ReadOutcome.readableContent]
  all_goals try rfl
  all_goals by_cases hbp : pyStrip content = "" <;> simp [hbp]

/-- C3 (amended): a job is recorded as a success iff it passed sanitization,
the process spawned, did not time out, exited 0 and the artifact read did not
raise `FileNotFoundError` — the only read failure the code catches; a
`Blueprint` artifact event is emitted iff additionally the read succeeded
with non-blank content. Hence an artifact event implies a success record, and
a zero exit with a *missing* output file is recorded as a failure with no
artifact event — but a readable, blank artifact, and likewise a
present-but-unreadable artifact whose read raises any other error
(`PermissionError`, `UnicodeDecodeError`, ...), records a success while
emitting no artifact event, so success is not equivalent to the presence of
an artifact event as the claim stated, and an unreadable (rather than
missing) artifact is not recorded as a failure. -/
theorem C3_success_iff_artifact (st : ServiceSettings) (rid source : String)
    (opts : CompilerOptions) (w : World) :
    (Effect.record_success ∈ (compileAdmitted st rid source opts w).2 ↔
      ((sanitize_source st source w.suspicious).isOk = true ∧ w.spawn_ok = true ∧
        w.timed_out = false ∧ w.returncode = 0 ∧ w.output_file.isMissing = false)) ∧
    (((compileAdmitted st rid source opts w).1.any fun e => e.1 == OutputType.BLUEPRINT) = true ↔
      ((sanitize_source st source w.suspicious).isOk = true ∧ w.spawn_ok = true ∧
        w.timed_out = false ∧ w.returncode = 0 ∧
        pyStrip (w.output_file.readableContent.getD "") ≠ "")) := by
  have hch := innerBody_characterization st opts w
  cases hs : sanitize_source st source w.suspicious with
  | error e =>
      unfold compileAdmitted
      rw [hs]
      simp [Except.isOk, Except.toBool, beq_iff_eq]
  | ok c =>
      have h0 := innerBody_countP_record st opts w
      have hno : Effect.record_success ∉ (innerBody st opts w).2.1 := by
        intro hmem
        have hpos : 0 < (innerBody st opts w).2.1.countP isRecordEffect :=
          List.countP_pos_iff.mpr ⟨_, hmem, rfl⟩
        omega
      simp only [Except.isOk, Except.toBool, eq_self_iff_true, true_and]
      rw [← hch.1, ← hch.2]
      constructor
      · unfold compileAdmitted
        rw [hs]
        cases hb : (innerBody st opts w).2.2 <;> simp [hno, hb]
      · unfold compileAdmitted
        rw [hs]
        simp [beq_iff_eq]

/-- Counterexample to C3 as stated, on two concrete worlds: a process that
exits 0 with a readable but blank output file, and one that exits 0 with a
present-but-unreadable output file (an uncaught read error after the success
flag was set), are both recorded as successes even though no Artifact
(`Blueprint`) event was produced in their streams — the second also refutes
the claim's "missing or unreadable ... recorded as a failure". -/
theorem C3_success_without_artifact_counterexample :
    (Effect.record_success ∈
      (compileAdmitted sampleSettings "r3" "circuit" defaultOpts
        { sampleWorld with output_file := ReadOutcome.content "" }).2 ∧
    ((compileAdmitted sampleSettings "r3" "circuit" defaultOpts
        { sampleWorld with output_file := ReadOutcome.content "" }).1.any
      fun e => e.1 == OutputType.BLUEPRINT) = false) ∧
    (Effect.record_success ∈
      (compileAdmitted sampleSettings "r4" "circuit" defaultOpts
        { sampleWorld with output_file := ReadOutcome.unreadable }).2 ∧
    ((compileAdmitted sampleSettings "r4" "circuit" defaultOpts
        { sampleWorld with output_file := ReadOutcome.unreadable }).1.any
      fun e => e.1 == OutputType.BLUEPRINT) = false) := by
  decide

/-! ## Statistics (stats.py)

The `_data` dict of the in-memory `Stats` object becomes `StatsData`;
durations are modelled as rationals (Python floats; `round(x, 3)` becomes
`round3`, with the caveat that Python rounds exact half-thousandths to even —
no claim depends on that tie case). The two timestamp fields only hold
wall-clock strings and carry no claim content, so they are tracked solely in
the key list used for the `get_stats` claim. -/

/-- stats.py line 12. -/
def MAX_RECENT_TIMES : Nat := 100

structure StatsData where
  unique_sessions : Nat := 0
  total_compilations : Nat := 0
  successful_compilations : Nat := 0
  failed_compilations : Nat := 0
  compilation_times : List ℚ := []
  avg_compilation_time_seconds : ℚ := 0
  median_compilation_time_seconds : ℚ := 0
  min_compilation_time_seconds : ℚ := 0
  max_compilation_time_seconds : ℚ := 0
deriving DecidableEq

/-- Python's `round(x, 3)`. -/
def round3 (x : ℚ) : ℚ := (round (x * 1000) : ℤ) / 1000

/-- Model of `Stats._record_compilation_time` (stats.py lines 104-130):
append the rounded duration, keep only the last `MAX_RECENT_TIMES` entries,
then recompute average, minimum, maximum and median over the retained list
(the `if times:` guard is always taken since an element was just appended). -/
def record_compilation_time (d : StatsData) (duration : ℚ) : StatsData :=
  let times0 := d.compilation_times ++ [round3 duration]
  let times :=
    if times0.length > MAX_RECENT_TIMES then times0.drop (times0.length - MAX_RECENT_TIMES)
    else times0
  let d1 := { d with compilation_times := times }
  if times.isEmpty then d1
  else
    let sorted_times := times.mergeSort (fun a b => a ≤ b)
    let n := sorted_times.length
    let median : ℚ :=
      if n % 2 = 0 then (sorted_times.getD (n / 2 - 1) 0 + sorted_times.getD (n / 2) 0) / 2
      else sorted_times.getD (n / 2) 0
    { d1 with
      avg_compilation_time_seconds := round3 (times.sum / (times.length : ℚ)),
      min_compilation_time_seconds := sorted_times.getD 0 0,
      max_compilation_time_seconds := sorted_times.getLastD 0,
      median_compilation_time_seconds := round3 median }

/-- Model of `Stats.record_compilation_success` (lines 86-93), without the
lock/YAML persistence. -/
def record_compilation_success (d : StatsData) (duration : ℚ) : StatsData :=
  record_compilation_time
    { d with successful_compilations := d.successful_compilations + 1 } duration

/-- Model of `Stats.record_compilation_failure` (lines 95-102). -/
def record_compilation_failure (d : StatsData) (duration : ℚ) : StatsData :=
  record_compilation_time
    { d with failed_compilations := d.failed_compilations + 1 } duration

/-- The keys of the `_data` dict as created by `_create_initial_data`
(stats.py lines 40-54), in source order. -/
def initial_data_keys : List String :=
  ["created_at", "last_updated", "unique_sessions", "total_compilations",
   "successful_compilations", "failed_compilations", "compilation_times",
   "avg_compilation_time_seconds", "median_compilation_time_seconds",
   "min_compilation_time_seconds", "max_compilation_time_seconds"]

/-- The keys of the dict `Stats.get_stats` returns (lines 132-137): a copy
of `_data` with `compilation_times` popped. -/
def get_stats_keys : List String := initial_data_keys.erase "compilation_times"

/-- The median aggregate of a list of durations: middle of the sorted list,
or the mean of the two middle entries for even length
(stats.py lines 124-130). -/
def medianAggregate (l : List ℚ) : ℚ :=
  let s := l.mergeSort (fun a b => a ≤ b)
  let n := s.length
  if n % 2 = 0 then (s.getD (n / 2 - 1) 0 + s.getD (n / 2) 0) / 2
  else s.getD (n / 2) 0

/-- The aggregate fields hold what the spec says they must: the retained
list is capped at `MAX_RECENT_TIMES`, min/max are members of and bound the
retained durations, and avg/median are the rounded aggregates computed over
exactly the retained durations. -/
def statsAggregatesOk (d : StatsData) : Prop :=
  d.compilation_times.length ≤ MAX_RECENT_TIMES ∧
  d.min_compilation_time_seconds ∈ d.compilation_times ∧
  d.max_compilation_time_seconds ∈ d.compilation_times ∧
  (∀ t ∈ d.compilation_times,
    d.min_compilation_time_seconds ≤ t ∧ t ≤ d.max_compilation_time_seconds) ∧
  d.avg_compilation_time_seconds =
    round3 (d.compilation_times.sum / (d.compilation_times.length : ℚ)) ∧
  d.median_compilation_time_seconds = round3 (medianAggregate d.compilation_times)

lemma getD_zero_mem {l : List ℚ} (h : l ≠ []) : l.getD 0 0 ∈ l := by
  cases l with
  | nil => simp at h
  | cons a t => simp [List.getD_cons_zero]

lemma sorted_getD_zero_le {l : List ℚ} (hs : l.Sorted (· ≤ ·)) :
    ∀ x ∈ l, l.getD 0 0 ≤ x := by
  cases l with
  | nil => simp
  | cons a t =>
      intro x hx
      rw [List.getD_cons_zero]
      rcases List.mem_cons.mp hx with rfl | hxt
      · exact le_refl x
      · exact (List.sorted_cons.mp hs).1 x hxt

lemma getLastD_mem (l : List ℚ) : l ≠ [] → ∀ dflt, l.getLastD dflt ∈ l := by
  induction l with
  | nil => intro h; simp at h
  | cons a t ih =>
      intro _ dflt
      rw [List.getLastD_cons]
      by_cases ht : t = []
      · subst ht; simp
      · exact List.mem_cons_of_mem a (ih ht a)

lemma sorted_le_getLastD (l : List ℚ) (hs : l.Sorted (· ≤ ·)) :
    ∀ dflt, ∀ x ∈ l, x ≤ l.getLastD dflt := by
  induction l with
  | nil => simp
  | cons a t ih =>
      intro dflt x hx
      rw [List.getLastD_cons]
      have hct := List.sorted_cons.mp hs
      by_cases ht : t = []
      · subst ht
        simp at hx
        subst hx
        simp [List.getLastD]
      · rcases List.mem_cons.mp hx with rfl | hxt
        · exact hct.1 _ (getLastD_mem t ht x)
        · exact ih hct.2 a x hxt

lemma mergeSort_sorted_le (l : List ℚ) :
    (l.mergeSort (fun a b => a ≤ b)).Sorted (· ≤ ·) := by
  have hp := @List.sorted_mergeSort ℚ (fun a b : ℚ => decide (a ≤ b))
    (fun a b c hab hbc => by
      simp only [decide_eq_true_eq] at *
      exact le_trans hab hbc)
    (fun a b => by simpa using le_total a b) l
  exact hp.imp (by simp)

lemma record_time_props (d : StatsData) (dur : ℚ) :
    statsAggregatesOk (record_compilation_time d dur) ∧
    (record_compilation_time d dur).compilation_times <:+
      (d.compilation_times ++ [round3 dur]) ∧
    (record_compilation_time d dur).successful_compilations =
      d.successful_compilations ∧
    (record_compilation_time d dur).failed_compilations = d.failed_compilations := by
  unfold record_compilation_time
  dsimp only
  set times0 := d.compilation_times ++ [round3 dur] with htimes0
  set times :=
    (if times0.length > MAX_RECENT_TIMES then times0.drop (times0.length - MAX_RECENT_TIMES)
     else times0) with htimes
  have hM : MAX_RECENT_TIMES = 100 := rfl
  have h01 : times0.length = d.compilation_times.length + 1 := by
    rw [htimes0]; simp
  have hlen : times.length ≤ MAX_RECENT_TIMES := by
    rw [htimes]; split_ifs with h
    · rw [List.length_drop]; omega
    · omega
  have hlenpos : 0 < times.length := by
    rw [htimes]; split_ifs with h
    · rw [List.length_drop]; omega
    · omega
  have hne : times ≠ [] := List.ne_nil_of_length_pos hlenpos
  have hsuffix : times <:+ times0 := by
    rw [htimes]; split_ifs with h
    · exact List.drop_suffix _ _
    · exact List.suffix_refl _
  have hempty : times.isEmpty = false := by
    cases hc : times with
    | nil => exact absurd hc hne
    | cons a t => rfl
  rw [hempty]
  simp only [Bool.false_eq_true, if_false]
  have hperm : (times.mergeSort (fun a b : ℚ => a ≤ b)).Perm times :=
    List.mergeSort_perm _ _
  have hsorted := mergeSort_sorted_le times
  have hsne : times.mergeSort (fun a b : ℚ => a ≤ b) ≠ [] := by
    intro habs
    rw [habs] at hperm
    exact hne (List.Perm.nil_eq hperm).symm
  refine ⟨⟨hlen, ?_, ?_, ?_, ?_, ?_⟩, hsuffix, ?_, ?_⟩ <;> try trivial
  · exact hperm.mem_iff.mp (getD_zero_mem hsne)
  · exact hperm.mem_iff.mp (getLastD_mem _ hsne 0)
  · intro t ht
    have ht' : t ∈ times.mergeSort (fun a b : ℚ => a ≤ b) := hperm.mem_iff.mpr ht
    exact ⟨sorted_getD_zero_le hsorted t ht', sorted_le_getLastD _ hsorted 0 t ht'⟩

/-- C10: each of the two record hooks appends the rounded duration, keeps at
most the `MAX_RECENT_TIMES` most recent durations (the retained list is a
suffix of the old list plus the new entry), recomputes avg/min/max/median
over exactly the retained durations, bumps its own counter, and `get_stats`
never exposes the raw `compilation_times` list. -/
theorem C10_stats_invariant (d : StatsData) (dur : ℚ) :
    statsAggregatesOk (record_compilation_success d dur) ∧
    statsAggregatesOk (record_compilation_failure d dur) ∧
    (record_compilation_success d dur).compilation_times <:+
      (d.compilation_times ++ [round3 dur]) ∧
    (record_compilation_failure d dur).compilation_times <:+
      (d.compilation_times ++ [round3 dur]) ∧
    (record_compilation_success d dur).successful_compilations =
      d.successful_compilations + 1 ∧
    (record_compilation_failure d dur).failed_compilations =
      d.failed_compilations + 1 ∧
    "compilation_times" ∉ get_stats_keys := by
  obtain ⟨ha1, ha2, ha3, _⟩ :=
    record_time_props { d with successful_compilations := d.successful_compilations + 1 } dur
  obtain ⟨hb1, hb2, _, hb4⟩ :=
    record_time_props { d with failed_compilations := d.failed_compilations + 1 } dur
  exact ⟨ha1, hb1, ha2, hb2, ha3, hb4, by decide⟩

end Facto
